import Mathlib

/-!
# ITKArrayFire: the host/accelerator buffer manager `itk::af::DataManager`

A shallow embedding of `src/include/itkafDataManager.hxx`.

* A manager object is the record `DataManager` of its member variables.
* Pointers are `Option Nat`: `none` is `ITK_NULLPTR`, `some i` is an address.
* The memory the pointers refer to lives in a `Heap`: the caller-managed host
  buffers and the `af::array` objects created by `new` and released by `delete`.
* A call whose behaviour is undefined in C++ (a copy through a null or dangling
  pointer, a copy that overruns a buffer, a double `delete`) evaluates to `none`.
* The mutex taken by the two copy routines and the debug logging are not
  modelled: every call runs to completion on its own.
-/

namespace itk.af

/-! ## The ArrayFire collaborator -/

/-- Modelled from the spec: `af::dim4` (ArrayFire, not part of this repository), an ordered
tuple of four non-negative extents. -/
structure Dim4 where
  d0 : Nat
  d1 : Nat
  d2 : Nat
  d3 : Nat
  deriving DecidableEq, Repr

/-- Modelled from the spec: `af::dim4::elements()`, the product of the four extents. -/
def Dim4.elements (d : Dim4) : Nat := d.d0 * d.d1 * d.d2 * d.d3

/-- Modelled from the spec: `dims[i] = v` of `af::dim4`; an index outside `0..3` changes
nothing (it is never used by the code). -/
def Dim4.set (d : Dim4) (i : Nat) (v : Nat) : Dim4 :=
  match i with
  | 0 => { d with d0 := v }
  | 1 => { d with d1 := v }
  | 2 => { d with d2 := v }
  | 3 => { d with d3 := v }
  | _ => d

/-- Modelled from the spec: an `af::array` (ArrayFire, not part of this repository): the
shape it was allocated with and its elements. -/
structure AfArray (T : Type) where
  dims : Dim4
  data : List T
  deriving DecidableEq, Repr

/-- The array is as `allocate(shape, elementType)` makes it: it records the shape `d` and
holds `d.elements()` elements. -/
def AfArray.allocatedWith {T : Type} (arr : AfArray T) (d : Dim4) : Prop :=
  arr.dims = d ∧ arr.data.length = d.elements

instance {T : Type} (arr : AfArray T) (d : Dim4) : Decidable (arr.allocatedWith d) := by
  unfold AfArray.allocatedWith; infer_instance

/-- Memory reachable through the pointers of the managers. `hostMem[p]` is the caller-managed
host allocation at address `p`; `arrays[a]` is the `af::array` object at address `a`, `none`
once it was deleted. -/
structure Heap (T : Type) where
  hostMem : List (List T)
  arrays : List (Option (AfArray T))
  deriving DecidableEq, Repr

variable {T : Type}

/-- The host allocation a pointer refers to; `none` for a null or invalid pointer. -/
def Heap.hostBuf? (h : Heap T) (p : Option Nat) : Option (List T) :=
  match p with
  | none => none
  | some j => h.hostMem[j]?

/-- The live `af::array` a pointer refers to; `none` for a null or dangling pointer. -/
def Heap.array? (h : Heap T) (a : Option Nat) : Option (AfArray T) :=
  match a with
  | none => none
  | some i => (h.arrays[i]?).join

/-- Modelled from the spec: `copyToHost(handle, hostPointer)`, ArrayFire's
`af::array::host(ptr)`: all elements of the array are copied to the start of the host
allocation. Undefined when a pointer is null or dangling or the allocation is too short. -/
def Heap.host (h : Heap T) (a p : Option Nat) : Option (Heap T) :=
  match a, p with
  | some i, some j =>
    match h.array? (some i), h.hostMem[j]? with
    | some arr, some buf =>
      if arr.data.length ≤ buf.length then
        some { h with hostMem := h.hostMem.set j (arr.data ++ buf.drop arr.data.length) }
      else none
    | _, _ => none
  | _, _ => none

/-- Modelled from the spec: `copyFromHost(handle, hostPointer, elementCount)`, ArrayFire's
`af::array::write(ptr, n)`: the first `n` elements of the host allocation replace the first
`n` elements of the array. Undefined when a pointer is null or dangling or either side holds
fewer than `n` elements. -/
def Heap.write (h : Heap T) (a p : Option Nat) (n : Nat) : Option (Heap T) :=
  match a, p with
  | some i, some j =>
    match h.array? (some i), h.hostMem[j]? with
    | some arr, some buf =>
      if n ≤ arr.data.length ∧ n ≤ buf.length then
        some { h with arrays := h.arrays.set i (some { arr with data := buf.take n ++ arr.data.drop n }) }
      else none
    | _, _ => none
  | _, _ => none

/-- The statement `delete ptr` on an `af::array*`: nothing for a null pointer, releases a live
array, undefined for a dangling pointer. -/
def Heap.delete (h : Heap T) (a : Option Nat) : Option (Heap T) :=
  match a with
  | none => some h
  | some i =>
    match h.array? (some i) with
    | some _ => some { h with arrays := h.arrays.set i none }
    | none => none

/-- The expression `new af::array(dims, type)`: a new array object at a fresh address, sized by
`dims`; its elements are whatever the uninitialised device memory holds, `garbage k` at
position `k`. Returns the address and the new heap. -/
def Heap.newArray (h : Heap T) (dims : Dim4) (garbage : Nat → T) : Nat × Heap T :=
  (h.arrays.length,
    { h with arrays := h.arrays ++ [some { dims := dims, data := (List.range dims.elements).map garbage }] })

/-! ## The manager -/

/-- Member variables of `itk::af::DataManager< TBuffer >`. `m_MTime` stands for the
modification time of the `itk::Object` base class. -/
structure DataManager where
  m_ArrayDimensions : Dim4
  m_Array : Option Nat
  m_HostBuffer : Option Nat
  m_IsArrayDirty : Bool
  m_IsHostBufferDirty : Bool
  m_MTime : Nat
  deriving DecidableEq, Repr

/-- One manager together with the memory its pointers refer to. -/
structure State (T : Type) where
  mgr : DataManager
  heap : Heap T
  deriving DecidableEq, Repr

/-- Modelled from the spec: `itk::Object::Modified()` (ITK, not part of this repository), the
change notification, as a counter. -/
def Modified (m : DataManager) : DataManager :=
  { m with m_MTime := m.m_MTime + 1 }

/-- `DataManager::Initialize()`. The loop over `dim = 0..3` zeroes the four extents; the array
object is not released. -/
def Initialize (s : State T) : State T :=
  { s with mgr :=
    { s.mgr with
      m_ArrayDimensions := [0, 1, 2, 3].foldl (fun d dim => d.set dim 0) s.mgr.m_ArrayDimensions
      m_Array := none
      m_HostBuffer := none
      m_IsArrayDirty := false
      m_IsHostBufferDirty := false } }

/-- `DataManager::DataManager()`: the member initialisers, the two null assignments and the
call of `Initialize()`. `dims0` is what the default-constructed `af::dim4` holds and `mtime0`
the modification time the `itk::Object` constructor leaves; the heap is the caller's. -/
def DataManager.construct (dims0 : Dim4) (mtime0 : Nat) (h : Heap T) : State T :=
  Initialize
    { mgr :=
      { m_ArrayDimensions := dims0
        m_Array := none
        m_HostBuffer := none
        m_IsArrayDirty := false
        m_IsHostBufferDirty := false
        m_MTime := mtime0 }
      heap := h }

/-- `DataManager::SetArrayDimensions(dims)`. -/
def SetArrayDimensions (s : State T) (dims : Dim4) : State T :=
  if dims ≠ s.mgr.m_ArrayDimensions then
    { s with mgr := Modified { s.mgr with m_ArrayDimensions := dims } }
  else s

/-- `DataManager::GetArrayDimensions()`. -/
def GetArrayDimensions (m : DataManager) : Dim4 := m.m_ArrayDimensions

/-- `DataManager::Allocate()`: `delete m_Array`, then `m_Array = new af::array(...)`, then the
array flag is set. -/
def Allocate (s : State T) (garbage : Nat → T) : Option (State T) :=
  match s.heap.delete s.mgr.m_Array with
  | none => none
  | some h1 =>
    let r := h1.newArray s.mgr.m_ArrayDimensions garbage
    some { mgr := { s.mgr with m_Array := some r.1, m_IsArrayDirty := true }, heap := r.2 }

/-- `DataManager::SetHostBufferPointer(ptr)`. -/
def SetHostBufferPointer (s : State T) (ptr : Option Nat) : State T :=
  { s with mgr := { s.mgr with m_HostBuffer := ptr } }

/-- `DataManager::SetHostDirtyFlag(isDirty)`. -/
def SetHostDirtyFlag (s : State T) (isDirty : Bool) : State T :=
  { s with mgr := { s.mgr with m_IsHostBufferDirty := isDirty } }

/-- `DataManager::SetArrayDirtyFlag(isDirty)`. -/
def SetArrayDirtyFlag (s : State T) (isDirty : Bool) : State T :=
  { s with mgr := { s.mgr with m_IsArrayDirty := isDirty } }

/-- `DataManager::UpdateHostBuffer()`. -/
def UpdateHostBuffer (s : State T) : Option (State T) :=
  if s.mgr.m_IsHostBufferDirty = true ∧ s.mgr.m_Array ≠ none ∧ s.mgr.m_HostBuffer ≠ none then
    match s.heap.host s.mgr.m_Array s.mgr.m_HostBuffer with
    | none => none
    | some h1 => some { mgr := { s.mgr with m_IsHostBufferDirty := false }, heap := h1 }
  else some s

/-- `DataManager::UpdateArray()`. The flag is assigned `true` after the copy, as in the
source. -/
def UpdateArray (s : State T) : Option (State T) :=
  if s.mgr.m_IsArrayDirty = true ∧ s.mgr.m_HostBuffer ≠ none ∧ s.mgr.m_Array ≠ none then
    match s.heap.write s.mgr.m_Array s.mgr.m_HostBuffer s.mgr.m_ArrayDimensions.elements with
    | none => none
    | some h1 => some { mgr := { s.mgr with m_IsArrayDirty := true }, heap := h1 }
  else some s

/-- `DataManager::SetArrayDirty()`. -/
def SetArrayDirty (s : State T) : Option (State T) :=
  match UpdateHostBuffer s with
  | none => none
  | some s1 => some { s1 with mgr := { s1.mgr with m_IsArrayDirty := true } }

/-- `DataManager::SetHostBufferDirty()`. -/
def SetHostBufferDirty (s : State T) : Option (State T) :=
  match UpdateArray s with
  | none => none
  | some s1 => some { s1 with mgr := { s1.mgr with m_IsHostBufferDirty := true } }

/-- `DataManager::GetModifiableArray()`: the returned pointer and the state after. -/
def GetModifiableArray (s : State T) : Option (Option Nat × State T) :=
  match SetHostBufferDirty s with
  | none => none
  | some s1 => some (s1.mgr.m_Array, s1)

/-- `DataManager::GetHostBufferPointer()`: the returned pointer and the state after. -/
def GetHostBufferPointer (s : State T) : Option (Option Nat × State T) :=
  match SetArrayDirty s with
  | none => none
  | some s1 => some (s1.mgr.m_HostBuffer, s1)

/-- How a call of `DataManager::Update()` ends. -/
inductive UpdateResult (T : Type) where
  /-- The call returned `value`, leaving the state `post`. -/
  | returned (value : Bool) (post : State T)
  /-- The call threw the exception "Cannot make up-to-date buffer because both CPU and GPU
  buffers are dirty"; `post` is the state the caller finds. -/
  | conflictingDirtyState (post : State T)
  /-- The call ran into undefined behaviour inside one of the copies. -/
  | undefined
  deriving DecidableEq, Repr

/-- `DataManager::Update()`. -/
def Update (s : State T) : UpdateResult T :=
  if s.mgr.m_IsArrayDirty = true ∧ s.mgr.m_IsHostBufferDirty = true then
    .conflictingDirtyState s
  else
    match UpdateArray s with
    | none => .undefined
    | some s1 =>
      match UpdateHostBuffer s1 with
      | none => .undefined
      | some s2 =>
        .returned true
          { s2 with mgr := { s2.mgr with m_IsArrayDirty := false, m_IsHostBufferDirty := false } }

/-- `DataManager::Graft(data)` called on the manager `self` with the heap `h`; `data` is the
pointed-to manager, `none` for a null pointer, and a different object from `self`. Returns
`self`, `*data` and the heap after the call. -/
def Graft (self : DataManager) (data : Option DataManager) (h : Heap T) :
    Option (DataManager × Option DataManager × Heap T) :=
  match data with
  | none => some (self, none, h)
  | some d =>
    let self1 := { self with m_ArrayDimensions := GetArrayDimensions d }
    match GetModifiableArray { mgr := d, heap := h } with
    | none => none
    | some (arr, s1) =>
      let self2 := { self1 with m_Array := arr }
      match GetHostBufferPointer s1 with
      | none => none
      | some (ptr, s2) =>
        let self3 := { self2 with m_HostBuffer := ptr }
        let self4 := { self3 with m_IsHostBufferDirty := s2.mgr.m_IsHostBufferDirty }
        let self5 := { self4 with m_IsArrayDirty := s2.mgr.m_IsArrayDirty }
        some (self5, some s2.mgr, s2.heap)

/-! ## What the caller does with the buffers between calls -/

/-- The caller overwrites the whole attached host buffer with `v`. Undefined when no valid
buffer is attached or `v` has another length. -/
def callerSetsHost (s : State T) (v : List T) : Option (State T) :=
  match s.mgr.m_HostBuffer with
  | none => none
  | some j =>
    match s.heap.hostMem[j]? with
    | none => none
    | some buf =>
      if v.length = buf.length then
        some { s with heap := { s.heap with hostMem := s.heap.hostMem.set j v } }
      else none

/-- The caller overwrites the whole device array with the contents of the attached host
buffer. Undefined when either is missing or the sizes differ. -/
def callerSetsDeviceFromHost (s : State T) : Option (State T) :=
  match s.mgr.m_Array, s.heap.array? s.mgr.m_Array, s.heap.hostBuf? s.mgr.m_HostBuffer with
  | some i, some arr, some buf =>
    if buf.length = arr.data.length then
      some { s with heap := { s.heap with arrays := s.heap.arrays.set i (some { arr with data := buf }) } }
    else none
  | _, _, _ => none

/-! ## Observations, scenarios and example states -/

/-- The live `af::array` the manager points to. -/
def State.deviceArray (s : State T) : Option (AfArray T) := s.heap.array? s.mgr.m_Array

/-- Contents of the device array the manager points to. -/
def State.deviceContents (s : State T) : Option (List T) := s.deviceArray.map (fun arr => arr.data)

/-- Contents of the host buffer the manager points to. -/
def State.hostContents (s : State T) : Option (List T) := s.heap.hostBuf? s.mgr.m_HostBuffer

/-- The sequence of the round-trip property, from the state `s0` on: `SetArrayDirty()`,
`Allocate()`, `UpdateArray()`, the caller replaces the host contents by `v`,
`SetHostBufferDirty()`, the caller overwrites the device from the host,
`UpdateHostBuffer()`. -/
def roundTrip (s0 : State T) (garbage : Nat → T) (v : List T) : Option (State T) :=
  (SetArrayDirty s0).bind fun s1 =>
  (Allocate s1 garbage).bind fun s2 =>
  (UpdateArray s2).bind fun s3 =>
  (callerSetsHost s3 v).bind fun s4 =>
  (SetHostBufferDirty s4).bind fun s5 =>
  (callerSetsDeviceFromHost s5).bind fun s6 =>
  UpdateHostBuffer s6

/-- A small state, as it is right after an allocation: shape `(2,1,1,1)`, host buffer
`[7, 8]`, device array holding the uninitialised values `[5, 6]`, only the array flag set. -/
def exampleState : State Int :=
  { mgr :=
    { m_ArrayDimensions := ⟨2, 1, 1, 1⟩
      m_Array := some 0
      m_HostBuffer := some 0
      m_IsArrayDirty := true
      m_IsHostBufferDirty := false
      m_MTime := 1 }
    heap := { hostMem := [[7, 8]], arrays := [some { dims := ⟨2, 1, 1, 1⟩, data := [5, 6] }] } }

/-- The state `Update()` leaves when called on `exampleState`: the host values are on the
device and no flag is set. -/
def exampleSynced : State Int :=
  { mgr := { exampleState.mgr with m_IsArrayDirty := false }
    heap := { hostMem := [[7, 8]], arrays := [some { dims := ⟨2, 1, 1, 1⟩, data := [7, 8] }] } }

/-- A heap with one host allocation `[7, 8]` and no array. -/
def hostOnlyHeap : Heap Int := { hostMem := [[7, 8]], arrays := [] }

/-- The state `exampleState` with the flags exchanged: only the host flag is set. -/
def exampleHostDirty : State Int :=
  { exampleState with
    mgr := { exampleState.mgr with m_IsArrayDirty := false, m_IsHostBufferDirty := true } }

/-- A newly constructed manager on an empty heap. -/
def freshState : State Int := DataManager.construct ⟨0, 0, 0, 0⟩ 0 { hostMem := [], arrays := [] }

/-- A state in which the shape was changed after the allocation: the array was allocated
with shape `(1,1,1,1)` and holds `[5]`, the shape is now `(2,1,1,1)` and the host buffer
holds `[7, 8]`. -/
def reshapedState (arrayDirty hostDirty : Bool) : State Int :=
  { mgr :=
    { m_ArrayDimensions := ⟨2, 1, 1, 1⟩
      m_Array := some 0
      m_HostBuffer := some 0
      m_IsArrayDirty := arrayDirty
      m_IsHostBufferDirty := hostDirty
      m_MTime := 2 }
    heap := { hostMem := [[7, 8]], arrays := [some { dims := ⟨1, 1, 1, 1⟩, data := [5] }] } }

/-- The state `Update()` leaves when called on `exampleHostDirty`: the device values `[5, 6]`
are in the host buffer. -/
def exampleHostDirtyUpdated : State Int :=
  { mgr := { exampleState.mgr with m_IsArrayDirty := false }
    heap := { hostMem := [[5, 6]], arrays := [some { dims := ⟨2, 1, 1, 1⟩, data := [5, 6] }] } }

/-- The state `UpdateHostBuffer()` leaves when called on `reshapedState false true`: only the
first host element was overwritten. -/
def reshapedHostUpdated : State Int :=
  { mgr := (reshapedState false false).mgr
    heap := { hostMem := [[5, 8]], arrays := [some { dims := ⟨1, 1, 1, 1⟩, data := [5] }] } }

/-- The scenario of the specification before the allocation: a new manager with the shape
`(4,4,1,1)` and a host buffer of 16 zeros attached. -/
def scenarioState : State Int :=
  SetHostBufferPointer
    (SetArrayDimensions
      (DataManager.construct ⟨0, 0, 0, 0⟩ 0 { hostMem := [List.replicate 16 0], arrays := [] })
      ⟨4, 4, 1, 1⟩)
    (some 0)

/-- `SetHostBufferDirty()` as the specification words it: the host to device materialization
first, then the host flag is set. -/
def SetHostBufferDirty_asSpecified (s : State T) : Option (State T) :=
  (UpdateArray s).map fun s1 => SetHostDirtyFlag s1 true

/-- `SetArrayDirty()` as the specification words it: the device to host materialization
first, then the array flag is set. -/
def SetArrayDirty_asSpecified (s : State T) : Option (State T) :=
  (UpdateHostBuffer s).map fun s1 => SetArrayDirtyFlag s1 true

/-- A call of one of the public operations of a manager, with its arguments. -/
inductive Operation (T : Type) where
  | SetArrayDimensions (dims : Dim4)
  | SetHostBufferPointer (ptr : Option Nat)
  | Allocate (garbage : Nat → T)
  | SetHostDirtyFlag (isDirty : Bool)
  | SetArrayDirtyFlag (isDirty : Bool)
  | SetHostBufferDirty
  | SetArrayDirty
  | UpdateHostBuffer
  | UpdateArray
  | Update
  | Initialize

/-- The state after one call; `none` when the call is undefined. After `Update()` the caller
goes on with the state the call leaves, whether it returned or threw. -/
def applyOperation (op : Operation T) (s : State T) : Option (State T) :=
  match op with
  | .SetArrayDimensions dims => some (SetArrayDimensions s dims)
  | .SetHostBufferPointer ptr => some (SetHostBufferPointer s ptr)
  | .Allocate garbage => Allocate s garbage
  | .SetHostDirtyFlag isDirty => some (SetHostDirtyFlag s isDirty)
  | .SetArrayDirtyFlag isDirty => some (SetArrayDirtyFlag s isDirty)
  | .SetHostBufferDirty => SetHostBufferDirty s
  | .SetArrayDirty => SetArrayDirty s
  | .UpdateHostBuffer => UpdateHostBuffer s
  | .UpdateArray => UpdateArray s
  | .Update =>
    match Update s with
    | .returned _ post => some post
    | .conflictingDirtyState post => some post
    | .undefined => none
  | .Initialize => some (Initialize s)

/-- The state after a sequence of calls, first call first. -/
def runOperations (ops : List (Operation T)) (s : State T) : Option (State T) :=
  match ops with
  | [] => some s
  | op :: rest =>
    match applyOperation op s with
    | none => none
    | some s1 => runOperations rest s1

/-- `UpdateArray()` performs its host to device write in this state: the test of its `if`
succeeds. -/
def State.writes (s : State T) : Prop :=
  s.mgr.m_IsArrayDirty = true ∧ s.mgr.m_HostBuffer ≠ none ∧ s.mgr.m_Array ≠ none

instance (s : State T) : Decidable s.writes := by
  unfold State.writes; infer_instance

/-- The array pointer of the manager is null, or it refers to a live array that holds as
many elements as the product of the shape it was allocated with. -/
def State.arrayAsAllocated (s : State T) : Prop :=
  s.mgr.m_Array = none ∨
    ∃ arr, s.deviceArray = some arr ∧ arr.data.length = arr.dims.elements

/-- The calls that lead to `reshapedState true false`: the shape is changed after the
allocation. -/
def reshapingCalls : List (Operation Int) :=
  [.SetArrayDimensions ⟨1, 1, 1, 1⟩, .Allocate (fun _ => 5), .SetArrayDimensions ⟨2, 1, 1, 1⟩,
    .SetHostBufferPointer (some 0)]

/-! ## The two copy routines and `Update`, step by step -/

theorem deviceArray_some {s : State T} {arr : AfArray T} (h : s.deviceArray = some arr) :
    ∃ a, s.mgr.m_Array = some a ∧ s.heap.arrays[a]? = some (some arr) := by
  unfold State.deviceArray Heap.array? at h
  cases ha : s.mgr.m_Array with
  | none => simp [ha] at h
  | some a =>
    refine ⟨a, rfl, ?_⟩
    simp only [ha] at h
    cases hx : s.heap.arrays[a]? with
    | none => simp [hx] at h
    | some o => simp [hx] at h; simp [h]

theorem hostContents_some {s : State T} {buf : List T} (h : s.hostContents = some buf) :
    ∃ p, s.mgr.m_HostBuffer = some p ∧ s.heap.hostMem[p]? = some buf := by
  unfold State.hostContents Heap.hostBuf? at h
  cases hp : s.mgr.m_HostBuffer with
  | none => simp [hp] at h
  | some p => exact ⟨p, rfl, by simpa [hp] using h⟩

/-- The copy branch of `UpdateHostBuffer`. -/
theorem UpdateHostBuffer_copy (s : State T) (a p : Nat) (arr : AfArray T) (buf : List T)
    (hd : s.mgr.m_IsHostBufferDirty = true)
    (hA : s.mgr.m_Array = some a) (hP : s.mgr.m_HostBuffer = some p)
    (harr : s.heap.arrays[a]? = some (some arr)) (hbuf : s.heap.hostMem[p]? = some buf)
    (hlen : arr.data.length ≤ buf.length) :
    UpdateHostBuffer s = some
      { mgr := { s.mgr with m_IsHostBufferDirty := false }
        heap := { s.heap with
          hostMem := s.heap.hostMem.set p (arr.data ++ buf.drop arr.data.length) } } := by
  simp [UpdateHostBuffer, Heap.host, Heap.array?, hd, hA, hP, harr, hbuf, hlen]

/-- The copy branch of `UpdateArray`. -/
theorem UpdateArray_copy (s : State T) (a p : Nat) (arr : AfArray T) (buf : List T)
    (hd : s.mgr.m_IsArrayDirty = true)
    (hA : s.mgr.m_Array = some a) (hP : s.mgr.m_HostBuffer = some p)
    (harr : s.heap.arrays[a]? = some (some arr)) (hbuf : s.heap.hostMem[p]? = some buf)
    (hn : s.mgr.m_ArrayDimensions.elements ≤ arr.data.length)
    (hn2 : s.mgr.m_ArrayDimensions.elements ≤ buf.length) :
    UpdateArray s = some
      { mgr := { s.mgr with m_IsArrayDirty := true }
        heap := { s.heap with
          arrays := s.heap.arrays.set a (some { arr with
            data := buf.take s.mgr.m_ArrayDimensions.elements
              ++ arr.data.drop s.mgr.m_ArrayDimensions.elements }) } } := by
  simp [UpdateArray, Heap.write, Heap.array?, hd, hA, hP, harr, hbuf, hn, hn2]

/-- Without its flag `UpdateHostBuffer` does nothing. -/
theorem UpdateHostBuffer_clean (s : State T) (hd : s.mgr.m_IsHostBufferDirty = false) :
    UpdateHostBuffer s = some s := by
  simp [UpdateHostBuffer, hd]

/-- Without its flag `UpdateArray` does nothing. -/
theorem UpdateArray_clean (s : State T) (hd : s.mgr.m_IsArrayDirty = false) :
    UpdateArray s = some s := by
  simp [UpdateArray, hd]

/-- `Update()` with only the host flag set: the device array is copied to the host buffer. -/
theorem Update_hostDirty (s : State T) (a p : Nat) (arr : AfArray T) (buf : List T)
    (hH : s.mgr.m_IsHostBufferDirty = true) (hAd : s.mgr.m_IsArrayDirty = false)
    (hA : s.mgr.m_Array = some a) (hP : s.mgr.m_HostBuffer = some p)
    (harr : s.heap.arrays[a]? = some (some arr)) (hbuf : s.heap.hostMem[p]? = some buf)
    (hlen : arr.data.length ≤ buf.length) :
    Update s = .returned true
      { mgr := { s.mgr with m_IsArrayDirty := false, m_IsHostBufferDirty := false }
        heap := { s.heap with
          hostMem := s.heap.hostMem.set p (arr.data ++ buf.drop arr.data.length) } } := by
  simp only [Update, hAd, hH, UpdateArray_clean s hAd]
  rw [UpdateHostBuffer_copy s a p arr buf hH hA hP harr hbuf hlen]
  simp

/-- `Update()` with only the array flag set: the host buffer is copied to the device array. -/
theorem Update_arrayDirty (s : State T) (a p : Nat) (arr : AfArray T) (buf : List T)
    (hH : s.mgr.m_IsHostBufferDirty = false) (hAd : s.mgr.m_IsArrayDirty = true)
    (hA : s.mgr.m_Array = some a) (hP : s.mgr.m_HostBuffer = some p)
    (harr : s.heap.arrays[a]? = some (some arr)) (hbuf : s.heap.hostMem[p]? = some buf)
    (hn : s.mgr.m_ArrayDimensions.elements ≤ arr.data.length)
    (hn2 : s.mgr.m_ArrayDimensions.elements ≤ buf.length) :
    Update s = .returned true
      { mgr := { s.mgr with m_IsArrayDirty := false, m_IsHostBufferDirty := false }
        heap := { s.heap with
          arrays := s.heap.arrays.set a (some { arr with
            data := buf.take s.mgr.m_ArrayDimensions.elements
              ++ arr.data.drop s.mgr.m_ArrayDimensions.elements }) } } := by
  simp only [Update, hAd, hH]
  rw [UpdateArray_copy s a p arr buf hAd hA hP harr hbuf hn hn2]
  simp only [Bool.false_eq_true, and_false, if_false]
  rw [UpdateHostBuffer_clean _ (by simpa using hH)]

/-- C1. In a state with both buffers attached, the device array allocated with the current
shape, the host buffer holding `product(shape)` elements and exactly one of the two flags
set, `Update()` returns `true` and leaves the host buffer contents equal to the device array
contents. -/
theorem Update_synchronizes (s : State T) (arr : AfArray T) (buf : List T)
    (hdev : s.deviceArray = some arr) (hhost : s.hostContents = some buf)
    (halloc : arr.allocatedWith s.mgr.m_ArrayDimensions)
    (hlen : buf.length = s.mgr.m_ArrayDimensions.elements)
    (hone : s.mgr.m_IsHostBufferDirty ≠ s.mgr.m_IsArrayDirty) :
    ∃ post contents, Update s = .returned true post ∧
      post.hostContents = some contents ∧ post.deviceContents = some contents := by
  obtain ⟨a, hA, harr⟩ := deviceArray_some hdev
  obtain ⟨p, hP, hbuf⟩ := hostContents_some hhost
  obtain ⟨-, hsize⟩ := halloc
  have hp : p < s.heap.hostMem.length := (List.getElem?_eq_some.mp hbuf).1
  have ha : a < s.heap.arrays.length := (List.getElem?_eq_some.mp harr).1
  cases hH : s.mgr.m_IsHostBufferDirty with
  | true =>
    have hAd : s.mgr.m_IsArrayDirty = false := by
      cases hx : s.mgr.m_IsArrayDirty with
      | false => rfl
      | true => exact absurd (hH.trans hx.symm) hone
    refine ⟨_, arr.data,
      Update_hostDirty s a p arr buf hH hAd hA hP harr hbuf (by omega), ?_, ?_⟩
    · simp [State.hostContents, Heap.hostBuf?, hP, hp, hsize, hlen]
    · simp [State.deviceContents, State.deviceArray, Heap.array?, hA, harr]
  | false =>
    have hAd : s.mgr.m_IsArrayDirty = true := by
      cases hx : s.mgr.m_IsArrayDirty with
      | true => rfl
      | false => exact absurd (hH.trans hx.symm) hone
    refine ⟨_, buf,
      Update_arrayDirty s a p arr buf hH hAd hA hP harr hbuf (by omega) (by omega), ?_, ?_⟩
    · simp [State.hostContents, Heap.hostBuf?, hP, hbuf]
    · simp [State.deviceContents, State.deviceArray, Heap.array?, hA, ha, hsize, ← hlen]

theorem Update_synchronizes_witness :
    ∃ post contents, Update exampleState = .returned true post ∧
      post.hostContents = some contents ∧ post.deviceContents = some contents :=
  Update_synchronizes exampleState { dims := ⟨2, 1, 1, 1⟩, data := [5, 6] } [7, 8]
    (by decide) (by decide) (by decide) (by decide) (by decide)

/-- C2. Whenever `Update()` returns, both dirty flags are false afterwards. -/
theorem Update_returned_flags (s post : State T) (value : Bool)
    (h : Update s = .returned value post) :
    post.mgr.m_IsArrayDirty = false ∧ post.mgr.m_IsHostBufferDirty = false := by
  unfold Update at h
  split at h
  · cases h
  · split at h
    · cases h
    · split at h
      · cases h
      · injection h with _ hpost
        subst hpost
        exact ⟨rfl, rfl⟩

theorem Update_returned_flags_witness :
    Update exampleState = .returned true exampleSynced ∧
      exampleSynced.mgr.m_IsArrayDirty = false ∧
      exampleSynced.mgr.m_IsHostBufferDirty = false :=
  ⟨by decide, Update_returned_flags exampleState exampleSynced true (by decide)⟩

/-- C3. `Update()` throws the conflicting-dirty-state exception exactly when both flags are
set at the call, and the state the caller finds after the exception is the state before the
call: flags, pointers, shape and buffer contents are all as they were. -/
theorem Update_conflict (s : State T) :
    ((∃ post, Update s = .conflictingDirtyState post) ↔
        (s.mgr.m_IsArrayDirty = true ∧ s.mgr.m_IsHostBufferDirty = true)) ∧
      (∀ post, Update s = .conflictingDirtyState post → post = s) := by
  by_cases hb : s.mgr.m_IsArrayDirty = true ∧ s.mgr.m_IsHostBufferDirty = true
  · have hu : Update s = .conflictingDirtyState s := by simp [Update, hb]
    refine ⟨⟨fun _ => hb, fun _ => ⟨s, hu⟩⟩, ?_⟩
    intro post hpost
    rw [hu] at hpost
    injection hpost with h
    exact h.symm
  · have hu : ∀ post, Update s ≠ .conflictingDirtyState post := by
      intro post hpost
      unfold Update at hpost
      rw [if_neg hb] at hpost
      split at hpost
      · cases hpost
      · split at hpost <;> cases hpost
    exact ⟨⟨fun ⟨post, hpost⟩ => absurd hpost (hu post), fun h => absurd h hb⟩,
      fun post hpost => absurd hpost (hu post)⟩

theorem Update_conflict_witness :
    ((∃ post, Update (reshapedState true true) = .conflictingDirtyState post) ↔
        ((reshapedState true true).mgr.m_IsArrayDirty = true ∧
          (reshapedState true true).mgr.m_IsHostBufferDirty = true)) ∧
      (∀ post, Update (reshapedState true true) = .conflictingDirtyState post →
        post = reshapedState true true) :=
  Update_conflict (reshapedState true true)

/-- The round trip from any state without a device array and with a host buffer of
`product(shape)` elements attached. -/
theorem roundTrip_general (s0 : State T) (p : Nat) (v v' : List T) (garbage : Nat → T)
    (hA : s0.mgr.m_Array = none) (hP : s0.mgr.m_HostBuffer = some p)
    (hbuf : s0.heap.hostMem[p]? = some v)
    (hv : v.length = s0.mgr.m_ArrayDimensions.elements) (hv' : v'.length = v.length) :
    ∃ post, roundTrip s0 garbage v' = some post ∧ post.hostContents = some v' := by
  have hp : p < s0.heap.hostMem.length := (List.getElem?_eq_some.mp hbuf).1
  simp [roundTrip, SetArrayDirty, Allocate, hA, Heap.delete,
    Heap.newArray, UpdateArray, hP, Heap.write, Heap.array?, hbuf, hv', callerSetsHost,
    SetHostBufferDirty, callerSetsDeviceFromHost, Heap.hostBuf?, UpdateHostBuffer, Heap.host,
    State.hostContents, hp, ← hv]

theorem SetArrayDimensions_dims (s : State T) (dims : Dim4) :
    (SetArrayDimensions s dims).mgr.m_ArrayDimensions = dims ∧
      (SetArrayDimensions s dims).mgr.m_Array = s.mgr.m_Array ∧
      (SetArrayDimensions s dims).mgr.m_HostBuffer = s.mgr.m_HostBuffer ∧
      (SetArrayDimensions s dims).heap = s.heap := by
  unfold SetArrayDimensions
  by_cases h : dims = s.mgr.m_ArrayDimensions
  · simp [h]
  · simp [h, Modified]

/-- C4. Round trip. From a freshly constructed manager with the shape set and a host buffer
of `product(shape)` elements holding `v` attached, the sequence `SetArrayDirty()`,
`Allocate()`, `UpdateArray()`, host contents replaced by `v'`, `SetHostBufferDirty()`,
device overwritten from the host, `UpdateHostBuffer()` runs to its end and leaves the host
buffer holding exactly `v'`. -/
theorem roundTrip_host (dims0 dims : Dim4) (mtime0 : Nat) (h : Heap T) (p : Nat)
    (v v' : List T) (garbage : Nat → T)
    (hbuf : h.hostMem[p]? = some v) (hv : v.length = dims.elements)
    (hv' : v'.length = v.length) :
    ∃ post,
      roundTrip
        (SetHostBufferPointer (SetArrayDimensions (DataManager.construct dims0 mtime0 h) dims)
          (some p)) garbage v' = some post ∧
      post.hostContents = some v' := by
  obtain ⟨h1, h2, _, h4⟩ :=
    SetArrayDimensions_dims (DataManager.construct dims0 mtime0 h) dims
  apply roundTrip_general _ p v v' garbage
  · show (SetArrayDimensions _ dims).mgr.m_Array = none
    rw [h2]; rfl
  · rfl
  · show (SetArrayDimensions _ dims).heap.hostMem[p]? = some v
    rw [h4]; exact hbuf
  · show v.length = (SetArrayDimensions _ dims).mgr.m_ArrayDimensions.elements
    rw [h1]; exact hv
  · exact hv'

theorem roundTrip_host_witness :
    hostOnlyHeap.hostMem[0]? = some [7, 8] ∧
      ([7, 8] : List Int).length = Dim4.elements ⟨2, 1, 1, 1⟩ ∧
      ([3, 4] : List Int).length = ([7, 8] : List Int).length ∧
      ∃ post,
        roundTrip
          (SetHostBufferPointer
            (SetArrayDimensions (DataManager.construct ⟨1, 1, 1, 1⟩ 0 hostOnlyHeap) ⟨2, 1, 1, 1⟩)
            (some 0)) (fun _ => 0) [3, 4] = some post ∧
        post.hostContents = some [3, 4] :=
  ⟨by decide, by decide, by decide,
    roundTrip_host ⟨1, 1, 1, 1⟩ ⟨2, 1, 1, 1⟩ 0 hostOnlyHeap 0
      [7, 8] [3, 4] (fun _ => 0) (by decide) (by decide) (by decide)⟩

/-- The reshaped state is what the public operations produce from a new manager:
`SetArrayDimensions((1,1,1,1))`, `Allocate()`, `SetArrayDimensions((2,1,1,1))`,
`SetHostBufferPointer`, and the two unconditional flag setters. -/
theorem reshapedState_reachable (arrayDirty hostDirty : Bool) :
    (Allocate (SetArrayDimensions (DataManager.construct ⟨0, 0, 0, 0⟩ 0 hostOnlyHeap) ⟨1, 1, 1, 1⟩)
        (fun _ => 5)).map
      (fun s => SetHostDirtyFlag (SetArrayDirtyFlag
        (SetHostBufferPointer (SetArrayDimensions s ⟨2, 1, 1, 1⟩) (some 0)) arrayDirty) hostDirty)
      = some (reshapedState arrayDirty hostDirty) := by
  cases arrayDirty <;> cases hostDirty <;> decide

/-- The example state is what the public operations produce from a new manager:
`SetArrayDimensions((2,1,1,1))`, `SetHostBufferPointer`, `Allocate()`. -/
theorem exampleState_reachable :
    Allocate
        (SetHostBufferPointer
          (SetArrayDimensions (DataManager.construct ⟨0, 0, 0, 0⟩ 0 hostOnlyHeap) ⟨2, 1, 1, 1⟩)
          (some 0))
        (fun k => 5 + Int.ofNat k)
      = some exampleState := by
  decide

/-- The flags of `exampleHostDirty` are those the two unconditional setters give. -/
theorem exampleHostDirty_reachable :
    SetHostDirtyFlag (SetArrayDirtyFlag exampleState false) true = exampleHostDirty := by
  decide

/-- C5 (the code at the failing input). `B` is the synchronised `exampleSynced`, with both
flags false; after `A.Graft(B)` on a new manager `A` the shape of `A` is that of `B`, but the
array flag of `A` (and of `B`) is true: `A` has the flags `B` has after the two accessor
calls, not the flags `B` had before the call. -/
theorem Graft_flags_differ :
    exampleSynced.mgr.m_IsArrayDirty = false ∧ exampleSynced.mgr.m_IsHostBufferDirty = false ∧
      Graft freshState.mgr (some exampleSynced.mgr) exampleSynced.heap =
        some ({ exampleSynced.mgr with m_IsArrayDirty := true, m_MTime := 0 },
          some { exampleSynced.mgr with m_IsArrayDirty := true }, exampleSynced.heap) := by
  decide

/-- C6 (the code at the failing input). `B` is `exampleState`, right after an allocation:
host buffer `[7, 8]`, device array `[5, 6]`, array flag set. `A.Graft(B)` overwrites the
device array of `B` with the host values. With `exampleHostDirty` for `B` (same buffers, only
the host flag set) it overwrites the host buffer of `B` with the device values. -/
theorem Graft_copies_data :
    exampleState.deviceContents = some [5, 6] ∧
      Graft freshState.mgr (some exampleState.mgr) exampleState.heap =
        some ({ exampleState.mgr with m_MTime := 0 }, some exampleState.mgr,
          { hostMem := [[7, 8]], arrays := [some { dims := ⟨2, 1, 1, 1⟩, data := [7, 8] }] }) ∧
      exampleHostDirty.hostContents = some [7, 8] ∧
      Graft freshState.mgr (some exampleHostDirty.mgr) exampleHostDirty.heap =
        some ({ exampleState.mgr with m_MTime := 0 }, some exampleState.mgr,
          { hostMem := [[5, 6]], arrays := [some { dims := ⟨2, 1, 1, 1⟩, data := [5, 6] }] }) := by
  decide

/-- C7 (counterexample). In `exampleHostDirty` only the host flag is set, the host buffer holds
`[7, 8]` and the device array `[5, 6]`. `Update()` returns `true`, and afterwards the device
array still holds `[5, 6]` and the host buffer holds `[5, 6]`: the host data was not
propagated to the device, it was overwritten. -/
theorem Update_hostDirty_counterexample :
    exampleHostDirty.mgr.m_IsHostBufferDirty = true ∧
      exampleHostDirty.mgr.m_IsArrayDirty = false ∧
      exampleHostDirty.hostContents = some [7, 8] ∧
      exampleHostDirty.deviceContents = some [5, 6] ∧
      Update exampleHostDirty = .returned true exampleHostDirtyUpdated ∧
      exampleHostDirtyUpdated.deviceContents ≠ exampleHostDirty.hostContents ∧
      exampleHostDirtyUpdated.hostContents ≠ exampleHostDirty.hostContents := by
  decide

/-- C7 (amended). With only the host flag set, both buffers attached and the host buffer at
least as long as the device array, `Update()` returns `true` and propagates the device data
to the host: afterwards the host buffer starts with the device array contents (it holds
exactly them when the sizes agree), the device array contents are unchanged and both flags
are false. -/
theorem Update_hostDirty_copies_device (s : State T) (arr : AfArray T) (buf : List T)
    (hH : s.mgr.m_IsHostBufferDirty = true) (hAd : s.mgr.m_IsArrayDirty = false)
    (hdev : s.deviceArray = some arr) (hhost : s.hostContents = some buf)
    (hlen : arr.data.length ≤ buf.length) :
    ∃ post, Update s = .returned true post ∧
      post.hostContents = some (arr.data ++ buf.drop arr.data.length) ∧
      (buf.length = arr.data.length → post.hostContents = some arr.data) ∧
      post.deviceContents = some arr.data ∧
      post.mgr.m_IsArrayDirty = false ∧ post.mgr.m_IsHostBufferDirty = false := by
  obtain ⟨a, hA, harr⟩ := deviceArray_some hdev
  obtain ⟨p, hP, hbuf⟩ := hostContents_some hhost
  have hp : p < s.heap.hostMem.length := (List.getElem?_eq_some.mp hbuf).1
  refine ⟨_, Update_hostDirty s a p arr buf hH hAd hA hP harr hbuf hlen, ?_, ?_, ?_, rfl, rfl⟩
  · simp [State.hostContents, Heap.hostBuf?, hP, hp]
  · intro heq
    simp [State.hostContents, Heap.hostBuf?, hP, hp, heq]
  · simp [State.deviceContents, State.deviceArray, Heap.array?, hA, harr]

theorem Update_hostDirty_copies_device_witness :
    ∃ post, Update exampleHostDirty = .returned true post ∧
      post.hostContents = some ([5, 6] ++ ([7, 8] : List Int).drop 2) ∧
      (([7, 8] : List Int).length = ([5, 6] : List Int).length →
        post.hostContents = some [5, 6]) ∧
      post.deviceContents = some [5, 6] ∧
      post.mgr.m_IsArrayDirty = false ∧ post.mgr.m_IsHostBufferDirty = false :=
  Update_hostDirty_copies_device exampleHostDirty { dims := ⟨2, 1, 1, 1⟩, data := [5, 6] } [7, 8]
    (by decide) (by decide) (by decide) (by decide) (by decide)

/-- C8 (counterexample). In `reshapedState false true` the host flag is set and both pointers
are non-null; the device array holds `[5]` and the host buffer `[7, 8]`. `UpdateHostBuffer()`
leaves the host buffer holding `[5, 8]`, which is not the device array contents. -/
theorem UpdateHostBuffer_counterexample :
    (reshapedState false true).mgr.m_IsHostBufferDirty = true ∧
      (reshapedState false true).mgr.m_Array ≠ none ∧
      (reshapedState false true).mgr.m_HostBuffer ≠ none ∧
      UpdateHostBuffer (reshapedState false true) = some reshapedHostUpdated ∧
      reshapedHostUpdated.hostContents = some [5, 8] ∧
      reshapedHostUpdated.deviceContents = some [5] ∧
      reshapedHostUpdated.hostContents ≠ reshapedHostUpdated.deviceContents := by
  decide

/-- C8 (amended). `UpdateHostBuffer()` with the host flag set, both buffers attached and the
host buffer at least as long as the device array: the leading elements of the host buffer
become the device array contents (the whole buffer when the sizes agree) and the elements
behind them stay; the host flag becomes false; shape, both pointers, the array flag and all
arrays are unchanged. With the host flag clear or a null pointer the whole state is
unchanged. -/
theorem UpdateHostBuffer_spec (s : State T) :
    (∀ arr buf, s.mgr.m_IsHostBufferDirty = true → s.deviceArray = some arr →
        s.hostContents = some buf → arr.data.length ≤ buf.length →
        ∃ post, UpdateHostBuffer s = some post ∧
          post.hostContents = some (arr.data ++ buf.drop arr.data.length) ∧
          (buf.length = arr.data.length → post.hostContents = some arr.data) ∧
          post.mgr = { s.mgr with m_IsHostBufferDirty := false } ∧
          post.heap.arrays = s.heap.arrays ∧
          post.deviceContents = some arr.data) ∧
      ((s.mgr.m_IsHostBufferDirty = false ∨ s.mgr.m_Array = none ∨ s.mgr.m_HostBuffer = none) →
        UpdateHostBuffer s = some s) := by
  constructor
  · intro arr buf hH hdev hhost hlen
    obtain ⟨a, hA, harr⟩ := deviceArray_some hdev
    obtain ⟨p, hP, hbuf⟩ := hostContents_some hhost
    have hp : p < s.heap.hostMem.length := (List.getElem?_eq_some.mp hbuf).1
    refine ⟨_, UpdateHostBuffer_copy s a p arr buf hH hA hP harr hbuf hlen, ?_, ?_, rfl, rfl, ?_⟩
    · simp [State.hostContents, Heap.hostBuf?, hP, hp]
    · intro heq
      simp [State.hostContents, Heap.hostBuf?, hP, hp, heq]
    · simp [State.deviceContents, State.deviceArray, Heap.array?, hA, harr]
  · intro h
    unfold UpdateHostBuffer
    rw [if_neg]
    rintro ⟨h1, h2, h3⟩
    rcases h with h | h | h
    · rw [h] at h1; cases h1
    · exact h2 h
    · exact h3 h

theorem UpdateHostBuffer_spec_witness :
    (∃ post, UpdateHostBuffer exampleHostDirty = some post ∧
        post.hostContents = some ([5, 6] ++ ([7, 8] : List Int).drop 2) ∧
        (([7, 8] : List Int).length = ([5, 6] : List Int).length →
          post.hostContents = some [5, 6]) ∧
        post.mgr = { exampleHostDirty.mgr with m_IsHostBufferDirty := false } ∧
        post.heap.arrays = exampleHostDirty.heap.arrays ∧
        post.deviceContents = some [5, 6]) ∧
      UpdateHostBuffer exampleState = some exampleState :=
  ⟨(UpdateHostBuffer_spec exampleHostDirty).1 { dims := ⟨2, 1, 1, 1⟩, data := [5, 6] } [7, 8]
      (by decide) (by decide) (by decide) (by decide),
    (UpdateHostBuffer_spec exampleState).2 (Or.inl (by decide))⟩

/-- C9 (counterexample). In `reshapedState true false` the array flag is set and both pointers
are non-null, the shape has `2` elements but the device array was allocated with one: the
write of `2` elements overruns the array, so no state follows in which the first `2`
elements of the device array are those of the host buffer. -/
theorem UpdateArray_counterexample :
    (reshapedState true false).mgr.m_IsArrayDirty = true ∧
      (reshapedState true false).mgr.m_Array ≠ none ∧
      (reshapedState true false).mgr.m_HostBuffer ≠ none ∧
      (reshapedState true false).mgr.m_ArrayDimensions.elements = 2 ∧
      (reshapedState true false).deviceContents = some [5] ∧
      (reshapedState true false).hostContents = some [7, 8] ∧
      UpdateArray (reshapedState true false) = none := by
  decide

/-- C9 (amended). `UpdateArray()` with the array flag set, both buffers attached and at least
`n = product(shape)` elements on either side: the first `n` elements of the device array
become the first `n` elements of the host buffer, the device elements behind them stay and
the host memory is unchanged. In particular, with shape `(4,4,1,1)`, a host buffer of 16
copies of a value `z` (16 zeros for `z = 0`) and a freshly allocated array, the device array
holds 16 copies of `z` afterwards. -/
theorem UpdateArray_spec (s : State T) :
    (∀ arr buf, s.mgr.m_IsArrayDirty = true → s.deviceArray = some arr →
        s.hostContents = some buf →
        s.mgr.m_ArrayDimensions.elements ≤ arr.data.length →
        s.mgr.m_ArrayDimensions.elements ≤ buf.length →
        ∃ post dev, UpdateArray s = some post ∧ post.deviceContents = some dev ∧
          dev.take s.mgr.m_ArrayDimensions.elements = buf.take s.mgr.m_ArrayDimensions.elements ∧
          dev.drop s.mgr.m_ArrayDimensions.elements
            = arr.data.drop s.mgr.m_ArrayDimensions.elements ∧
          post.hostContents = some buf ∧ post.heap.hostMem = s.heap.hostMem) ∧
      (∀ (z : T) (p : Nat) (garbage : Nat → T),
        s.mgr.m_ArrayDimensions = ⟨4, 4, 1, 1⟩ → s.mgr.m_Array = none →
        s.mgr.m_HostBuffer = some p → s.heap.hostMem[p]? = some (List.replicate 16 z) →
        ∃ s1 post, Allocate s garbage = some s1 ∧ UpdateArray s1 = some post ∧
          post.deviceContents = some (List.replicate 16 z)) := by
  constructor
  · intro arr buf hd hdev hhost hn hn2
    obtain ⟨a, hA, harr⟩ := deviceArray_some hdev
    obtain ⟨p, hP, hbuf⟩ := hostContents_some hhost
    have ha : a < s.heap.arrays.length := (List.getElem?_eq_some.mp harr).1
    refine ⟨_, buf.take s.mgr.m_ArrayDimensions.elements
        ++ arr.data.drop s.mgr.m_ArrayDimensions.elements,
      UpdateArray_copy s a p arr buf hd hA hP harr hbuf hn hn2, ?_, ?_, ?_, ?_, rfl⟩
    · simp [State.deviceContents, State.deviceArray, Heap.array?, hA, ha]
    · simp [List.take_append_eq_append_take, hn2]
    · simp [List.drop_append_eq_append_drop, hn2, Nat.min_eq_left hn2]
    · simp [State.hostContents, Heap.hostBuf?, hP, hbuf]
  · intro z p garbage hdims hA hP hbuf
    simp [Allocate, hA, Heap.delete, Heap.newArray, UpdateArray, hP, Heap.write, Heap.array?,
      hbuf, hdims, Dim4.elements, State.deviceContents, State.deviceArray]

theorem UpdateArray_spec_witness :
    (∃ post dev, UpdateArray exampleState = some post ∧ post.deviceContents = some dev ∧
        dev.take exampleState.mgr.m_ArrayDimensions.elements
          = ([7, 8] : List Int).take exampleState.mgr.m_ArrayDimensions.elements ∧
        dev.drop exampleState.mgr.m_ArrayDimensions.elements
          = ([5, 6] : List Int).drop exampleState.mgr.m_ArrayDimensions.elements ∧
        post.hostContents = some [7, 8] ∧ post.heap.hostMem = exampleState.heap.hostMem) ∧
      ∃ s1 post, Allocate scenarioState (fun k => Int.ofNat k + 1) = some s1 ∧
        UpdateArray s1 = some post ∧ post.deviceContents = some (List.replicate 16 0) :=
  ⟨(UpdateArray_spec exampleState).1 { dims := ⟨2, 1, 1, 1⟩, data := [5, 6] } [7, 8]
      (by decide) (by decide) (by decide) (by decide) (by decide),
    (UpdateArray_spec scenarioState).2 0 0 (fun k => Int.ofNat k + 1)
      (by decide) (by decide) (by decide) (by decide)⟩

/-- C10 (the code at the failing input). In `exampleState` the array flag is set and both
pointers are non-null, so `UpdateArray()` performs the host to device copy: the device array
holds the host values `[7, 8]` afterwards, and the array flag is still true. -/
theorem UpdateArray_keeps_flag :
    exampleState.mgr.m_IsArrayDirty = true ∧
      exampleState.mgr.m_HostBuffer ≠ none ∧ exampleState.mgr.m_Array ≠ none ∧
      UpdateArray exampleState = some { exampleState with heap := exampleSynced.heap } ∧
      State.deviceContents { exampleState with heap := exampleSynced.heap } = some [7, 8] ∧
      (State.mk exampleState.mgr exampleSynced.heap).mgr.m_IsArrayDirty = true := by
  decide

/-! ## No-ops, the two dirtying calls, shape changes and resets -/

/-- With a null pointer the two copy routines do nothing (shared form). -/
theorem copy_routines_skip_null (s : State T)
    (hnull : s.mgr.m_HostBuffer = none ∨ s.mgr.m_Array = none) :
    UpdateHostBuffer s = some s ∧ UpdateArray s = some s := by
  constructor
  · unfold UpdateHostBuffer
    rw [if_neg]
    rintro ⟨-, h2, h3⟩
    rcases hnull with h | h
    · exact h3 h
    · exact h2 h
  · unfold UpdateArray
    rw [if_neg]
    rintro ⟨-, h2, h3⟩
    rcases hnull with h | h
    · exact h2 h
    · exact h3 h

/-- C11. In a state in which the host buffer pointer or the array pointer is null, whatever
the two flags are, `UpdateHostBuffer()` and `UpdateArray()` both complete and leave the
whole state as it was. -/
theorem Update_routines_skip_null (s : State T)
    (hnull : s.mgr.m_HostBuffer = none ∨ s.mgr.m_Array = none) :
    UpdateHostBuffer s = some s ∧ UpdateArray s = some s :=
  copy_routines_skip_null s hnull

theorem Update_routines_skip_null_witness :
    (freshState.mgr.m_HostBuffer = none ∨ freshState.mgr.m_Array = none) ∧
      UpdateHostBuffer (SetHostDirtyFlag (SetArrayDirtyFlag freshState true) true)
        = some (SetHostDirtyFlag (SetArrayDirtyFlag freshState true) true) ∧
      UpdateArray (SetHostDirtyFlag (SetArrayDirtyFlag freshState true) true)
        = some (SetHostDirtyFlag (SetArrayDirtyFlag freshState true) true) :=
  ⟨Or.inl (by decide),
    Update_routines_skip_null (SetHostDirtyFlag (SetArrayDirtyFlag freshState true) true)
      (Or.inl (by decide))⟩

/-- C12. `SetHostBufferDirty()` is `UpdateArray()` followed by setting the host flag, and
`SetArrayDirty()` is `UpdateHostBuffer()` followed by setting the array flag: the code and
the specified sequence agree on every state, the materialization runs on the state of the
call, and whenever the call completes its own flag is true. -/
theorem SetDirty_refines (s : State T) :
    SetHostBufferDirty s = SetHostBufferDirty_asSpecified s ∧
      SetArrayDirty s = SetArrayDirty_asSpecified s ∧
      (∀ post, SetHostBufferDirty s = some post →
        post.mgr.m_IsHostBufferDirty = true ∧
          ∃ s1, UpdateArray s = some s1 ∧ post = SetHostDirtyFlag s1 true) ∧
      (∀ post, SetArrayDirty s = some post →
        post.mgr.m_IsArrayDirty = true ∧
          ∃ s1, UpdateHostBuffer s = some s1 ∧ post = SetArrayDirtyFlag s1 true) := by
  refine ⟨?_, ?_, ?_, ?_⟩
  · unfold SetHostBufferDirty SetHostBufferDirty_asSpecified
    cases UpdateArray s <;> rfl
  · unfold SetArrayDirty SetArrayDirty_asSpecified
    cases UpdateHostBuffer s <;> rfl
  · intro post hpost
    unfold SetHostBufferDirty at hpost
    cases h1 : UpdateArray s with
    | none => rw [h1] at hpost; cases hpost
    | some s1 =>
      rw [h1] at hpost
      injection hpost with hpost
      subst hpost
      exact ⟨rfl, s1, rfl, rfl⟩
  · intro post hpost
    unfold SetArrayDirty at hpost
    cases h1 : UpdateHostBuffer s with
    | none => rw [h1] at hpost; cases hpost
    | some s1 =>
      rw [h1] at hpost
      injection hpost with hpost
      subst hpost
      exact ⟨rfl, s1, rfl, rfl⟩

theorem SetDirty_refines_witness :
    SetHostBufferDirty exampleState
        = some (SetHostDirtyFlag { exampleState with heap := exampleSynced.heap } true) ∧
      (SetHostDirtyFlag { exampleState with heap := exampleSynced.heap } true).mgr.m_IsHostBufferDirty
        = true ∧
      ∃ s1, UpdateArray exampleState = some s1 ∧
        SetHostDirtyFlag { exampleState with heap := exampleSynced.heap } true
          = SetHostDirtyFlag s1 true :=
  ⟨by decide,
    (SetDirty_refines exampleState).2.2.1
      (SetHostDirtyFlag { exampleState with heap := exampleSynced.heap } true) (by decide)⟩

/-- C14. `SetArrayDimensions(d)` with `d` different from the current shape sets the shape to
`d` and raises the modification counter by exactly one; with `d` equal to the current shape
it leaves the whole state, counter included, unchanged. In both cases the heap (all buffer
contents), the two pointers and the two flags are as before. -/
theorem SetArrayDimensions_spec (s : State T) (d : Dim4) :
    (d ≠ s.mgr.m_ArrayDimensions →
        SetArrayDimensions s d =
          { s with mgr := { s.mgr with m_ArrayDimensions := d, m_MTime := s.mgr.m_MTime + 1 } }) ∧
      (d = s.mgr.m_ArrayDimensions → SetArrayDimensions s d = s) ∧
      (SetArrayDimensions s d).heap = s.heap ∧
      (SetArrayDimensions s d).mgr.m_Array = s.mgr.m_Array ∧
      (SetArrayDimensions s d).mgr.m_HostBuffer = s.mgr.m_HostBuffer ∧
      (SetArrayDimensions s d).mgr.m_IsArrayDirty = s.mgr.m_IsArrayDirty ∧
      (SetArrayDimensions s d).mgr.m_IsHostBufferDirty = s.mgr.m_IsHostBufferDirty := by
  unfold SetArrayDimensions
  by_cases h : d = s.mgr.m_ArrayDimensions
  · simp [h]
  · simp [h, Modified]

theorem SetArrayDimensions_spec_witness :
    SetArrayDimensions exampleState ⟨4, 4, 1, 1⟩ =
        { exampleState with
          mgr := { exampleState.mgr with m_ArrayDimensions := ⟨4, 4, 1, 1⟩, m_MTime := 2 } } ∧
      SetArrayDimensions exampleState ⟨2, 1, 1, 1⟩ = exampleState :=
  ⟨(SetArrayDimensions_spec exampleState ⟨4, 4, 1, 1⟩).1 (by decide),
    (SetArrayDimensions_spec exampleState ⟨2, 1, 1, 1⟩).2.1 (by decide)⟩

/-- C15. `UpdateHostBuffer()` is idempotent: on every state, calling it twice gives what
calling it once gives, and a state it has produced is left unchanged by it. -/
theorem UpdateHostBuffer_idempotent (s : State T) :
    (UpdateHostBuffer s).bind UpdateHostBuffer = UpdateHostBuffer s ∧
      ∀ s1, UpdateHostBuffer s = some s1 → UpdateHostBuffer s1 = some s1 := by
  have key : ∀ s1, UpdateHostBuffer s = some s1 → UpdateHostBuffer s1 = some s1 := by
    intro s1 h1
    unfold UpdateHostBuffer at h1
    split at h1
    · split at h1
      · cases h1
      · injection h1 with h1
        subst h1
        exact UpdateHostBuffer_clean _ rfl
    · injection h1 with h1
      subst h1
      unfold UpdateHostBuffer
      rw [if_neg ‹_›]
  refine ⟨?_, key⟩
  cases h1 : UpdateHostBuffer s with
  | none => rfl
  | some s1 => exact key s1 h1

theorem UpdateHostBuffer_idempotent_witness :
    UpdateHostBuffer exampleHostDirty = some exampleHostDirtyUpdated ∧
      UpdateHostBuffer exampleHostDirtyUpdated = some exampleHostDirtyUpdated :=
  ⟨by decide,
    (UpdateHostBuffer_idempotent exampleHostDirty).2 exampleHostDirtyUpdated (by decide)⟩

/-- C17. A newly constructed manager, and a manager after `Initialize()` from any state, is
fully reset: the four extents are 0, both pointers are null and both flags are false. -/
theorem Initialize_resets (dims0 : Dim4) (mtime0 : Nat) (h : Heap T) (s : State T) :
    ((DataManager.construct dims0 mtime0 h).mgr.m_ArrayDimensions = ⟨0, 0, 0, 0⟩ ∧
        (DataManager.construct dims0 mtime0 h).mgr.m_HostBuffer = none ∧
        (DataManager.construct dims0 mtime0 h).mgr.m_Array = none ∧
        (DataManager.construct dims0 mtime0 h).mgr.m_IsHostBufferDirty = false ∧
        (DataManager.construct dims0 mtime0 h).mgr.m_IsArrayDirty = false) ∧
      ((Initialize s).mgr.m_ArrayDimensions = ⟨0, 0, 0, 0⟩ ∧
        (Initialize s).mgr.m_HostBuffer = none ∧
        (Initialize s).mgr.m_Array = none ∧
        (Initialize s).mgr.m_IsHostBufferDirty = false ∧
        (Initialize s).mgr.m_IsArrayDirty = false) :=
  ⟨⟨rfl, rfl, rfl, rfl, rfl⟩, ⟨rfl, rfl, rfl, rfl, rfl⟩⟩

/-! ## The host accessor and the allocation -/

/-- C13 (counterexample). On the synchronised `exampleSynced` the call
`GetHostBufferPointer()` returns the host pointer, and afterwards the array flag is true and
the host flag is false: the flagged side is the device, not the host. -/
theorem GetHostBufferPointer_counterexample :
    GetHostBufferPointer exampleSynced
        = some (exampleSynced.mgr.m_HostBuffer, SetArrayDirtyFlag exampleSynced true) ∧
      (SetArrayDirtyFlag exampleSynced true).mgr.m_IsHostBufferDirty = false ∧
      (SetArrayDirtyFlag exampleSynced true).mgr.m_IsArrayDirty = true := by
  decide

/-- C13 (amended). `GetHostBufferPointer()` returns the attached host pointer and afterwards
the array flag is true. With the host flag clear or a null pointer nothing else changes;
with the host flag set, both buffers attached and the host buffer at least as long as the
array, the host buffer is first refreshed from the device and the host flag is false
afterwards. Whenever the call completes, the host flag is true afterwards only if it was
true before and one of the pointers is null. -/
theorem GetHostBufferPointer_spec (s : State T) :
    ((s.mgr.m_IsHostBufferDirty = false ∨ s.mgr.m_Array = none ∨ s.mgr.m_HostBuffer = none) →
        GetHostBufferPointer s = some (s.mgr.m_HostBuffer, SetArrayDirtyFlag s true)) ∧
      (∀ arr buf, s.mgr.m_IsHostBufferDirty = true → s.deviceArray = some arr →
        s.hostContents = some buf → arr.data.length ≤ buf.length →
        ∃ post, GetHostBufferPointer s = some (s.mgr.m_HostBuffer, post) ∧
          post.mgr.m_IsArrayDirty = true ∧ post.mgr.m_IsHostBufferDirty = false ∧
          post.hostContents = some (arr.data ++ buf.drop arr.data.length)) ∧
      (∀ ptr post, GetHostBufferPointer s = some (ptr, post) →
        ptr = s.mgr.m_HostBuffer ∧ post.mgr.m_IsArrayDirty = true ∧
          (post.mgr.m_IsHostBufferDirty = true ↔
            (s.mgr.m_IsHostBufferDirty = true ∧
              (s.mgr.m_Array = none ∨ s.mgr.m_HostBuffer = none)))) := by
  refine ⟨?_, ?_, ?_⟩
  · intro h
    have h1 : UpdateHostBuffer s = some s := by
      unfold UpdateHostBuffer
      rw [if_neg]
      rintro ⟨h1, h2, h3⟩
      rcases h with h | h | h
      · rw [h] at h1; cases h1
      · exact h2 h
      · exact h3 h
    simp [GetHostBufferPointer, SetArrayDirty, h1, SetArrayDirtyFlag]
  · intro arr buf hH hdev hhost hlen
    obtain ⟨a, hA, harr⟩ := deviceArray_some hdev
    obtain ⟨p, hP, hbuf⟩ := hostContents_some hhost
    have hp : p < s.heap.hostMem.length := (List.getElem?_eq_some.mp hbuf).1
    have h1 := UpdateHostBuffer_copy s a p arr buf hH hA hP harr hbuf hlen
    have h2 : GetHostBufferPointer s = some (s.mgr.m_HostBuffer,
        { mgr := { s.mgr with m_IsHostBufferDirty := false, m_IsArrayDirty := true }
          heap := { s.heap with
            hostMem := s.heap.hostMem.set p (arr.data ++ buf.drop arr.data.length) } }) := by
      simp only [GetHostBufferPointer, SetArrayDirty, h1]
    refine ⟨_, h2, rfl, rfl, ?_⟩
    simp [State.hostContents, Heap.hostBuf?, hP, hp]
  · intro ptr post hcall
    unfold GetHostBufferPointer SetArrayDirty at hcall
    cases h1 : UpdateHostBuffer s with
    | none => simp [h1] at hcall
    | some s1 =>
      simp only [h1] at hcall
      injection hcall with hcall
      injection hcall with hptr hpost
      subst hptr hpost
      unfold UpdateHostBuffer at h1
      split at h1
      · rename_i hc
        split at h1
        · cases h1
        · injection h1 with h1
          subst h1
          refine ⟨rfl, rfl, ?_⟩
          simp only [Bool.false_eq_true, false_iff, not_and, not_or]
          exact fun _ => ⟨hc.2.1, hc.2.2⟩
      · rename_i hc
        injection h1 with h1
        subst h1
        refine ⟨rfl, rfl, ?_⟩
        constructor
        · intro hH
          refine ⟨hH, ?_⟩
          by_contra hn
          rw [not_or] at hn
          exact hc ⟨hH, hn.1, hn.2⟩
        · exact fun h => h.1

theorem GetHostBufferPointer_spec_witness :
    GetHostBufferPointer exampleSynced
        = some (exampleSynced.mgr.m_HostBuffer, SetArrayDirtyFlag exampleSynced true) ∧
      ∃ post, GetHostBufferPointer exampleHostDirty = some (exampleHostDirty.mgr.m_HostBuffer, post) ∧
        post.mgr.m_IsArrayDirty = true ∧ post.mgr.m_IsHostBufferDirty = false ∧
        post.hostContents = some ([5, 6] ++ ([7, 8] : List Int).drop ([5, 6] : List Int).length) :=
  ⟨(GetHostBufferPointer_spec exampleSynced).1 (Or.inl (by decide)),
    (GetHostBufferPointer_spec exampleHostDirty).2.1 { dims := ⟨2, 1, 1, 1⟩, data := [5, 6] }
      [7, 8] (by decide) (by decide) (by decide) (by decide)⟩

/-- `Allocate()` on a manager without an array. -/
theorem Allocate_null (s : State T) (garbage : Nat → T) (hnone : s.mgr.m_Array = none) :
    Allocate s garbage = some
      { mgr := { s.mgr with m_Array := some s.heap.arrays.length, m_IsArrayDirty := true }
        heap := { s.heap with
          arrays := s.heap.arrays ++ [some ⟨s.mgr.m_ArrayDimensions,
            (List.range s.mgr.m_ArrayDimensions.elements).map garbage⟩] } } := by
  simp only [Allocate, hnone, Heap.delete, Heap.newArray]

/-- `Allocate()` on a manager that points to a live array. -/
theorem Allocate_live (s : State T) (garbage : Nat → T) (a : Nat) (arr : AfArray T)
    (hA : s.mgr.m_Array = some a) (harr : s.heap.arrays[a]? = some (some arr)) :
    Allocate s garbage = some
      { mgr := { s.mgr with m_Array := some s.heap.arrays.length, m_IsArrayDirty := true }
        heap := { s.heap with
          arrays := s.heap.arrays.set a none ++ [some ⟨s.mgr.m_ArrayDimensions,
            (List.range s.mgr.m_ArrayDimensions.elements).map garbage⟩] } } := by
  simp [Allocate, Heap.delete, hA, Heap.array?, harr, Heap.newArray]

/-- C16. In a state whose array pointer is null or refers to a live array, `Allocate()`
completes: the old array, if any, is released, the manager points to a new array at a fresh
address that was allocated with the current shape (so it holds `product(shape)` elements),
the array flag is true, and the shape, the host pointer, the host flag, the modification
counter and all host memory are as before. -/
theorem Allocate_spec (s : State T) (garbage : Nat → T)
    (hvalid : s.mgr.m_Array = none ∨ ∃ arr, s.deviceArray = some arr) :
    ∃ post arr', Allocate s garbage = some post ∧
      post.deviceArray = some arr' ∧
      arr'.allocatedWith s.mgr.m_ArrayDimensions ∧
      arr'.data.length = s.mgr.m_ArrayDimensions.elements ∧
      post.mgr = { s.mgr with m_Array := some s.heap.arrays.length, m_IsArrayDirty := true } ∧
      post.mgr.m_Array ≠ s.mgr.m_Array ∧
      s.heap.array? post.mgr.m_Array = none ∧
      post.heap.array? s.mgr.m_Array = none ∧
      post.heap.hostMem = s.heap.hostMem ∧
      post.hostContents = s.hostContents := by
  rcases hvalid with hnone | ⟨arr, hdev⟩
  · refine ⟨_, ⟨s.mgr.m_ArrayDimensions, (List.range s.mgr.m_ArrayDimensions.elements).map garbage⟩,
      Allocate_null s garbage hnone, ?_, ?_, ?_, ?_, ?_, ?_, ?_, ?_, ?_⟩
    · simp [State.deviceArray, Heap.array?]
    · simp [AfArray.allocatedWith]
    · simp
    · rfl
    · simp [hnone]
    · simp [Heap.array?]
    · simp [hnone, Heap.array?]
    · rfl
    · rfl
  · obtain ⟨a, hA, harr⟩ := deviceArray_some hdev
    have ha : a < s.heap.arrays.length := (List.getElem?_eq_some.mp harr).1
    refine ⟨_, ⟨s.mgr.m_ArrayDimensions, (List.range s.mgr.m_ArrayDimensions.elements).map garbage⟩,
      Allocate_live s garbage a arr hA harr, ?_, ?_, ?_, ?_, ?_, ?_, ?_, ?_, ?_⟩
    · simp [State.deviceArray, Heap.array?]
    · simp [AfArray.allocatedWith]
    · simp
    · simp
    · simp [hA]; omega
    · simp [Heap.array?]
    · simp [hA, Heap.array?, List.getElem?_append_left, ha]
    · rfl
    · rfl

theorem Allocate_spec_witness :
    ∃ post arr', Allocate exampleState (fun _ => 9) = some post ∧
      post.deviceArray = some arr' ∧
      arr'.allocatedWith exampleState.mgr.m_ArrayDimensions ∧
      arr'.data.length = exampleState.mgr.m_ArrayDimensions.elements ∧
      post.mgr = { exampleState.mgr with
        m_Array := some exampleState.heap.arrays.length, m_IsArrayDirty := true } ∧
      post.mgr.m_Array ≠ exampleState.mgr.m_Array ∧
      exampleState.heap.array? post.mgr.m_Array = none ∧
      post.heap.array? exampleState.mgr.m_Array = none ∧
      post.heap.hostMem = exampleState.heap.hostMem ∧
      post.hostContents = exampleState.hostContents :=
  Allocate_spec exampleState (fun _ => 9)
    (Or.inr ⟨{ dims := ⟨2, 1, 1, 1⟩, data := [5, 6] }, by decide⟩)

/-! ## Grafting -/

/-- `UpdateArray()` never changes a member variable of the manager: where it copies, the
array flag was true already. -/
theorem UpdateArray_mgr (s s1 : State T) (h : UpdateArray s = some s1) : s1.mgr = s.mgr := by
  unfold UpdateArray at h
  split at h
  · rename_i hc
    split at h
    · cases h
    · injection h with h
      subst h
      obtain ⟨mgr, heap⟩ := s
      obtain ⟨d, a, p, fa, fh, t⟩ := mgr
      simp only at hc
      simp [hc.1]
  · injection h with h
    subst h
    rfl

/-- What `UpdateHostBuffer()` does to the member variables: only the host flag can change,
and it stays true exactly when it was true and a pointer is null. -/
theorem UpdateHostBuffer_mgr (s s1 : State T) (h : UpdateHostBuffer s = some s1) :
    s1.mgr.m_ArrayDimensions = s.mgr.m_ArrayDimensions ∧
      s1.mgr.m_Array = s.mgr.m_Array ∧ s1.mgr.m_HostBuffer = s.mgr.m_HostBuffer ∧
      s1.mgr.m_IsArrayDirty = s.mgr.m_IsArrayDirty ∧ s1.mgr.m_MTime = s.mgr.m_MTime ∧
      (s1.mgr.m_IsHostBufferDirty = true ↔
        (s.mgr.m_IsHostBufferDirty = true ∧
          (s.mgr.m_HostBuffer = none ∨ s.mgr.m_Array = none))) := by
  unfold UpdateHostBuffer at h
  split at h
  · rename_i hc
    split at h
    · cases h
    · injection h with h
      subst h
      refine ⟨rfl, rfl, rfl, rfl, rfl, ?_⟩
      simp only [Bool.false_eq_true, false_iff, not_and, not_or]
      exact fun _ => ⟨hc.2.2, hc.2.1⟩
  · rename_i hc
    injection h with h
    subst h
    refine ⟨rfl, rfl, rfl, rfl, rfl, ?_⟩
    constructor
    · intro hH
      refine ⟨hH, ?_⟩
      by_contra hn
      rw [not_or] at hn
      exact hc ⟨hH, hn.2, hn.1⟩
    · exact fun h => h.1

/-- C18. `A.Graft(B)` for a manager `B`, whatever its state `d` before the call. Whenever
the call completes, `A` and `B` both have the array flag set, and both have the host flag
set exactly when the host pointer or the array pointer of `B` is null. When `B` lacks a
buffer the call completes without touching the heap, and `Update()` then throws the
conflicting-dirty-state exception on `A` and on `B`. When `B` has both buffers, the call
completes provided its two copies stay inside the buffers. -/
theorem Graft_flags (self d : DataManager) (h : Heap T) :
    (∀ a b h', Graft self (some d) h = some (a, b, h') →
        ∃ b', b = some b' ∧
          a.m_ArrayDimensions = d.m_ArrayDimensions ∧
          a.m_IsArrayDirty = true ∧ b'.m_IsArrayDirty = true ∧
          (a.m_IsHostBufferDirty = true ↔ (d.m_HostBuffer = none ∨ d.m_Array = none)) ∧
          (b'.m_IsHostBufferDirty = true ↔ (d.m_HostBuffer = none ∨ d.m_Array = none))) ∧
      ((d.m_HostBuffer = none ∨ d.m_Array = none) →
        ∃ a b, Graft self (some d) h = some (a, some b, h) ∧
          Update { mgr := a, heap := h } = .conflictingDirtyState { mgr := a, heap := h } ∧
          Update { mgr := b, heap := h } = .conflictingDirtyState { mgr := b, heap := h }) ∧
      (∀ arr buf, State.deviceArray { mgr := d, heap := h } = some arr →
        State.hostContents { mgr := d, heap := h } = some buf →
        arr.data.length ≤ buf.length →
        (d.m_IsArrayDirty = true → d.m_ArrayDimensions.elements ≤ arr.data.length) →
        ∃ a b h', Graft self (some d) h = some (a, some b, h')) := by
  refine ⟨?_, ?_, ?_⟩
  · intro a b h' hcall
    simp only [Graft, GetModifiableArray, SetHostBufferDirty, GetHostBufferPointer,
      SetArrayDirty] at hcall
    cases h1 : UpdateArray { mgr := d, heap := h } with
    | none => simp [h1] at hcall
    | some s1 =>
      have hm1 := UpdateArray_mgr _ _ h1
      simp only [h1] at hcall
      cases h2 : UpdateHostBuffer
          { s1 with mgr := { s1.mgr with m_IsHostBufferDirty := true } } with
      | none => simp [h2] at hcall
      | some s2 =>
        obtain ⟨-, hA, hP, -, -, hH⟩ := UpdateHostBuffer_mgr _ _ h2
        simp only [h2] at hcall
        injection hcall with hcall
        injection hcall with ha hrest
        injection hrest with hb hh
        subst ha hb hh
        simp only [hm1] at hH
        refine ⟨_, rfl, rfl, rfl, rfl, ?_, ?_⟩
        · simpa using hH
        · simpa using hH
  · intro hnull
    have h1 : UpdateArray { mgr := d, heap := h } = some { mgr := d, heap := h } :=
      (copy_routines_skip_null _ hnull).2
    have h2 : UpdateHostBuffer
        { mgr := { d with m_IsHostBufferDirty := true }, heap := h }
        = some { mgr := { d with m_IsHostBufferDirty := true }, heap := h } :=
      (copy_routines_skip_null _ hnull).1
    refine ⟨{ self with
        m_ArrayDimensions := d.m_ArrayDimensions
        m_Array := d.m_Array
        m_HostBuffer := d.m_HostBuffer
        m_IsHostBufferDirty := true
        m_IsArrayDirty := true },
      { d with m_IsHostBufferDirty := true, m_IsArrayDirty := true }, ?_, ?_, ?_⟩
    · simp only [Graft, GetModifiableArray, SetHostBufferDirty, GetHostBufferPointer,
        SetArrayDirty, h1, h2, GetArrayDimensions]
    · simp [Update]
    · simp [Update]
  · intro arr buf hdev hhost hlen hn
    obtain ⟨i, hA, harr⟩ := deviceArray_some hdev
    obtain ⟨p, hP, hbuf⟩ := hostContents_some hhost
    have hi : i < h.arrays.length := (List.getElem?_eq_some.mp harr).1
    simp only at hA hP harr hbuf
    by_cases hd : d.m_IsArrayDirty = true
    · have h1 := UpdateArray_copy { mgr := d, heap := h } i p arr buf hd hA hP harr hbuf
        (hn hd) (le_trans (hn hd) hlen)
      have h2 := UpdateHostBuffer_copy
        { mgr := { d with m_IsArrayDirty := true, m_IsHostBufferDirty := true }
          heap := { h with arrays := h.arrays.set i (some { arr with
            data := buf.take d.m_ArrayDimensions.elements
              ++ arr.data.drop d.m_ArrayDimensions.elements }) } }
        i p { arr with data := buf.take d.m_ArrayDimensions.elements
              ++ arr.data.drop d.m_ArrayDimensions.elements } buf rfl hA hP
        (by simp [hi]) hbuf
        (by have := hn hd; simp; omega)
      simp only [Graft, GetModifiableArray, SetHostBufferDirty, GetHostBufferPointer,
        SetArrayDirty, h1, h2]
      exact ⟨_, _, _, rfl⟩
    · have hd' : d.m_IsArrayDirty = false := by simpa using hd
      have h1 := UpdateArray_clean { mgr := d, heap := h } hd'
      have h2 := UpdateHostBuffer_copy
        { mgr := { d with m_IsHostBufferDirty := true }, heap := h }
        i p arr buf rfl hA hP harr hbuf hlen
      simp only [Graft, GetModifiableArray, SetHostBufferDirty, GetHostBufferPointer,
        SetArrayDirty, h1, h2]
      exact ⟨_, _, _, rfl⟩

theorem Graft_flags_witness :
    (∃ a b, Graft freshState.mgr (some freshState.mgr) freshState.heap
          = some (a, some b, freshState.heap) ∧
        Update { mgr := a, heap := freshState.heap }
          = .conflictingDirtyState { mgr := a, heap := freshState.heap } ∧
        Update { mgr := b, heap := freshState.heap }
          = .conflictingDirtyState { mgr := b, heap := freshState.heap }) ∧
      ∃ a b h', Graft freshState.mgr (some exampleState.mgr) exampleState.heap
        = some (a, some b, h') :=
  ⟨(Graft_flags freshState.mgr freshState.mgr freshState.heap).2.1 (Or.inl (by decide)),
    (Graft_flags freshState.mgr exampleState.mgr exampleState.heap).2.2
      { dims := ⟨2, 1, 1, 1⟩, data := [5, 6] } [7, 8]
      (by decide) (by decide) (by decide) (by decide)⟩

/-! ## Reachable states and the size of the host to device write -/

/-- C19 (counterexample). The calls `SetArrayDimensions((1,1,1,1))`, `Allocate()`,
`SetArrayDimensions((2,1,1,1))`, `SetHostBufferPointer` on a new manager lead to a state in
which `UpdateArray()` performs its write, and the count it writes, the product `2` of the
current shape, is not the count `1` the array was allocated with. -/
theorem reachable_write_count_counterexample :
    runOperations reshapingCalls (DataManager.construct ⟨0, 0, 0, 0⟩ 0 hostOnlyHeap)
        = some (reshapedState true false) ∧
      (reshapedState true false).writes ∧
      (reshapedState true false).mgr.m_ArrayDimensions.elements = 2 ∧
      (reshapedState true false).deviceArray = some { dims := ⟨1, 1, 1, 1⟩, data := [5] } ∧
      (reshapedState true false).mgr.m_ArrayDimensions.elements
        ≠ ([5] : List Int).length := by
  decide

/-- The property `arrayAsAllocated` depends on the array pointer and the arrays only. -/
theorem arrayAsAllocated_congr {s s1 : State T} (hA : s1.mgr.m_Array = s.mgr.m_Array)
    (harr : s1.heap.arrays = s.heap.arrays) (h : s.arrayAsAllocated) : s1.arrayAsAllocated := by
  unfold State.arrayAsAllocated State.deviceArray Heap.array? at *
  rw [hA, harr]
  exact h

/-- A pointer that `array?` resolves refers to a live entry of the heap. -/
theorem Heap.array?_some (h : Heap T) (i : Nat) (arr : AfArray T)
    (hx : h.array? (some i) = some arr) : h.arrays[i]? = some (some arr) := by
  unfold Heap.array? at hx
  cases hi : h.arrays[i]? with
  | none => simp [hi] at hx
  | some o => simp [hi] at hx; simp [hx]

/-- The device to host copy leaves the arrays alone. -/
theorem Heap.host_arrays (h h1 : Heap T) (a p : Option Nat) (hc : h.host a p = some h1) :
    h1.arrays = h.arrays := by
  cases a with
  | none => simp [Heap.host] at hc
  | some i =>
    cases p with
    | none => simp [Heap.host] at hc
    | some j =>
      cases harr : h.array? (some i) with
      | none => simp [Heap.host, harr] at hc
      | some arr =>
        cases hbuf : h.hostMem[j]? with
        | none => simp [Heap.host, harr, hbuf] at hc
        | some buf =>
          simp only [Heap.host, harr, hbuf] at hc
          split at hc
          · injection hc with hc
            subst hc
            rfl
          · cases hc

/-- What a completed host to device copy has done. -/
theorem Heap.write_some (h h1 : Heap T) (a p : Option Nat) (n : Nat)
    (hc : h.write a p n = some h1) :
    ∃ i arr buf, a = some i ∧ h.arrays[i]? = some (some arr) ∧ h.hostBuf? p = some buf ∧
      n ≤ arr.data.length ∧ n ≤ buf.length ∧
      h1 = { h with arrays := h.arrays.set i (some { arr with
        data := buf.take n ++ arr.data.drop n }) } := by
  cases a with
  | none => simp [Heap.write] at hc
  | some i =>
    cases p with
    | none => simp [Heap.write] at hc
    | some j =>
      cases harr : h.array? (some i) with
      | none => simp [Heap.write, harr] at hc
      | some arr =>
        cases hbuf : h.hostMem[j]? with
        | none => simp [Heap.write, harr, hbuf] at hc
        | some buf =>
          simp only [Heap.write, harr, hbuf] at hc
          split at hc
          · rename_i hn
            injection hc with hc
            exact ⟨i, arr, buf, rfl, Heap.array?_some h i arr harr,
              by simp [Heap.hostBuf?, hbuf], hn.1, hn.2, hc.symm⟩
          · cases hc

/-- `UpdateHostBuffer()` writes host memory only. -/
theorem UpdateHostBuffer_arrays (s s1 : State T) (h : UpdateHostBuffer s = some s1) :
    s1.heap.arrays = s.heap.arrays := by
  unfold UpdateHostBuffer at h
  split at h
  · cases hc : s.heap.host s.mgr.m_Array s.mgr.m_HostBuffer with
    | none => simp [hc] at h
    | some h1 =>
      simp only [hc] at h
      injection h with h
      subst h
      exact Heap.host_arrays _ _ _ _ hc
  · injection h with h
    subst h
    rfl

theorem UpdateHostBuffer_keeps (s s1 : State T) (h : UpdateHostBuffer s = some s1)
    (hs : s.arrayAsAllocated) : s1.arrayAsAllocated :=
  arrayAsAllocated_congr (UpdateHostBuffer_mgr s s1 h).2.1 (UpdateHostBuffer_arrays s s1 h) hs

theorem UpdateArray_keeps (s s1 : State T) (h : UpdateArray s = some s1)
    (hs : s.arrayAsAllocated) : s1.arrayAsAllocated := by
  unfold UpdateArray at h
  split at h
  · rename_i hc
    cases hw : s.heap.write s.mgr.m_Array s.mgr.m_HostBuffer s.mgr.m_ArrayDimensions.elements with
    | none => simp [hw] at h
    | some h1 =>
      simp only [hw] at h
      injection h with h
      subst h
      obtain ⟨i, arr, buf, hA, harr, -, hn, hn2, hh⟩ := Heap.write_some _ _ _ _ _ hw
      subst hh
      have hi : i < s.heap.arrays.length := (List.getElem?_eq_some.mp harr).1
      rcases hs with hnone | ⟨arr0, hdev, hlen⟩
      · exact absurd hnone hc.2.2
      · have h0 : arr0 = arr := by
          simp [State.deviceArray, Heap.array?, hA, harr] at hdev
          exact hdev.symm
        subst h0
        right
        refine ⟨⟨arr0.dims, buf.take s.mgr.m_ArrayDimensions.elements
          ++ arr0.data.drop s.mgr.m_ArrayDimensions.elements⟩, ?_, ?_⟩
        · simp [State.deviceArray, Heap.array?, hA, hi]
        · simp only [List.length_append, List.length_take, List.length_drop]
          rw [← hlen]
          omega
  · injection h with h
    subst h
    exact hs

theorem Allocate_keeps (s s1 : State T) (garbage : Nat → T) (h : Allocate s garbage = some s1)
    (hs : s.arrayAsAllocated) : s1.arrayAsAllocated := by
  have hnew : ∀ l : List (Option (AfArray T)), l.length = s.heap.arrays.length →
      State.arrayAsAllocated
        { mgr := { s.mgr with m_Array := some s.heap.arrays.length, m_IsArrayDirty := true }
          heap := { s.heap with
            arrays := l ++ [some ⟨s.mgr.m_ArrayDimensions,
              (List.range s.mgr.m_ArrayDimensions.elements).map garbage⟩] } } := by
    intro l hl
    right
    refine ⟨⟨s.mgr.m_ArrayDimensions,
      (List.range s.mgr.m_ArrayDimensions.elements).map garbage⟩, ?_, ?_⟩
    · simp [State.deviceArray, Heap.array?, ← hl]
    · simp
  rcases hs with hnone | ⟨arr, hdev, -⟩
  · rw [Allocate_null s garbage hnone] at h
    injection h with h
    subst h
    exact hnew _ rfl
  · obtain ⟨a, hA, harr⟩ := deviceArray_some hdev
    rw [Allocate_live s garbage a arr hA harr] at h
    injection h with h
    subst h
    exact hnew _ (by simp)

/-- Whatever way `Update()` ends, the state it leaves keeps the property. -/
theorem Update_keeps (s post : State T) (hs : s.arrayAsAllocated) :
    (∀ v, Update s = .returned v post → post.arrayAsAllocated) ∧
      (Update s = .conflictingDirtyState post → post.arrayAsAllocated) := by
  by_cases hb : s.mgr.m_IsArrayDirty = true ∧ s.mgr.m_IsHostBufferDirty = true
  · constructor
    · intro v h
      simp only [Update, if_pos hb] at h
      cases h
    · intro h
      simp only [Update, if_pos hb] at h
      injection h with h
      subst h
      exact hs
  · cases h1 : UpdateArray s with
    | none =>
      constructor
      · intro v h
        simp only [Update, if_neg hb, h1] at h
        cases h
      · intro h
        simp only [Update, if_neg hb, h1] at h
        cases h
    | some s2 =>
      cases h2 : UpdateHostBuffer s2 with
      | none =>
        constructor
        · intro v h
          simp only [Update, if_neg hb, h1, h2] at h
          cases h
        · intro h
          simp only [Update, if_neg hb, h1, h2] at h
          cases h
      | some s3 =>
        constructor
        · intro v h
          simp only [Update, if_neg hb, h1, h2] at h
          injection h with _ h
          subst h
          exact arrayAsAllocated_congr rfl rfl
            (UpdateHostBuffer_keeps s2 s3 h2 (UpdateArray_keeps s s2 h1 hs))
        · intro h
          simp only [Update, if_neg hb, h1, h2] at h
          cases h

theorem applyOperation_keeps (op : Operation T) (s s1 : State T)
    (h : applyOperation op s = some s1) (hs : s.arrayAsAllocated) : s1.arrayAsAllocated := by
  cases op with
  | SetArrayDimensions dims =>
    injection h with h
    subst h
    obtain ⟨-, hA, -, hh⟩ := SetArrayDimensions_dims s dims
    exact arrayAsAllocated_congr hA (by rw [hh]) hs
  | SetHostBufferPointer ptr =>
    injection h with h
    subst h
    exact arrayAsAllocated_congr rfl rfl hs
  | Allocate garbage => exact Allocate_keeps s s1 garbage h hs
  | SetHostDirtyFlag isDirty =>
    injection h with h
    subst h
    exact arrayAsAllocated_congr rfl rfl hs
  | SetArrayDirtyFlag isDirty =>
    injection h with h
    subst h
    exact arrayAsAllocated_congr rfl rfl hs
  | SetHostBufferDirty =>
    simp only [applyOperation, SetHostBufferDirty] at h
    cases h1 : UpdateArray s with
    | none => simp [h1] at h
    | some s2 =>
      simp only [h1] at h
      injection h with h
      subst h
      exact arrayAsAllocated_congr rfl rfl (UpdateArray_keeps s s2 h1 hs)
  | SetArrayDirty =>
    simp only [applyOperation, SetArrayDirty] at h
    cases h1 : UpdateHostBuffer s with
    | none => simp [h1] at h
    | some s2 =>
      simp only [h1] at h
      injection h with h
      subst h
      exact arrayAsAllocated_congr rfl rfl (UpdateHostBuffer_keeps s s2 h1 hs)
  | UpdateHostBuffer => exact UpdateHostBuffer_keeps s s1 h hs
  | UpdateArray => exact UpdateArray_keeps s s1 h hs
  | Update =>
    simp only [applyOperation] at h
    cases hu : Update s with
    | returned v post =>
      simp only [hu] at h
      injection h with h
      subst h
      exact (Update_keeps s _ hs).1 v hu
    | conflictingDirtyState post =>
      simp only [hu] at h
      injection h with h
      subst h
      exact (Update_keeps s _ hs).2 hu
    | undefined => simp [hu] at h
  | Initialize =>
    injection h with h
    subst h
    exact Or.inl rfl

theorem runOperations_keeps (ops : List (Operation T)) (s s1 : State T)
    (h : runOperations ops s = some s1) (hs : s.arrayAsAllocated) : s1.arrayAsAllocated := by
  induction ops generalizing s with
  | nil =>
    injection h with h
    subst h
    exact hs
  | cons op rest ih =>
    simp only [runOperations] at h
    cases h1 : applyOperation op s with
    | none => simp [h1] at h
    | some s2 =>
      simp only [h1] at h
      exact ih s2 h (applyOperation_keeps op s s2 h1 hs)

/-- C19 (amended). In every state reached from construction by the public operations, the
array pointer is null or refers to a live array holding as many elements as the product of
the shape it was allocated with. So when `UpdateArray()` performs its write in such a state
and the current shape is still the shape of the allocation, the element count it writes is
the element count the array was allocated with. -/
theorem reachable_write_count (ops : List (Operation T)) (dims0 : Dim4) (mtime0 : Nat)
    (h : Heap T) (s : State T)
    (hrun : runOperations ops (DataManager.construct dims0 mtime0 h) = some s) :
    s.arrayAsAllocated ∧
      (s.writes → ∃ arr, s.deviceArray = some arr ∧ arr.data.length = arr.dims.elements ∧
        (arr.dims = s.mgr.m_ArrayDimensions →
          s.mgr.m_ArrayDimensions.elements = arr.data.length)) := by
  have hs : s.arrayAsAllocated :=
    runOperations_keeps ops _ s hrun (Or.inl rfl)
  refine ⟨hs, ?_⟩
  intro hw
  rcases hs with hnone | ⟨arr, hdev, hlen⟩
  · exact absurd hnone hw.2.2
  · exact ⟨arr, hdev, hlen, fun hd => by rw [hlen, hd]⟩

theorem reachable_write_count_witness :
    exampleState.arrayAsAllocated ∧
      (exampleState.writes →
        ∃ arr, exampleState.deviceArray = some arr ∧ arr.data.length = arr.dims.elements ∧
          (arr.dims = exampleState.mgr.m_ArrayDimensions →
            exampleState.mgr.m_ArrayDimensions.elements = arr.data.length)) :=
  reachable_write_count
    [.SetArrayDimensions ⟨2, 1, 1, 1⟩, .SetHostBufferPointer (some 0),
      .Allocate (fun k => 5 + Int.ofNat k)]
    ⟨0, 0, 0, 0⟩ 0 hostOnlyHeap exampleState (by decide)

end itk.af
